import Mathlib

/-!
Verification of `weathergrab.py`: forecast acquisition, half-hour resampling
and chart layout for a 7-color e-paper display.

Shallow-embedding conventions:
* Timestamps are integers counting minutes of absolute time (the program only
  adds whole-minute `timedelta`s to timezone-aware datetimes, and aware
  datetimes compare by absolute time).  The grid step is 30 minutes, the
  look-ahead window `oneDayHence - measureStart` is 1500 minutes (25 h), the
  cache staleness threshold is 1440 minutes (24 h).
* Forecast values are rationals.
* Fallible Python operations (`datetime.replace` with an out-of-range hour,
  arithmetic on `None`, `int()` on a malformed string, `min`/`max` of an
  empty list) are modelled with `Option` / `Except`.
-/

/-- A forecast sample as produced by `extractTimeValues` (lines 259-263):
the dict `{'value': ..., 'validTime': ...}`, with the validity start already
parsed from its ISO-8601 string to a timestamp in minutes. -/
structure Sample where
  value : ℚ
  validTime : ℤ
  deriving Repr, DecidableEq

/-- `convertCToF` (lines 265-266): `1.8 * cel + 32`. -/
def convertCToF (cel : ℚ) : ℚ := 1.8 * cel + 32

/-- One step of the scan in the resampling loop (lines 309-315), for a single
series: `if idx < len(xs) and (cur is None or curTime >= xs[idx]['validTime']):
cur = xs[idx]['value']`. -/
def resolveStep (t : ℤ) (acc : Option ℚ) (s : Sample) : Option ℚ :=
  if acc = none ∨ s.validTime ≤ t then some s.value else acc

/-- The value the resampling loop (lines 305-319) resolves for one series at
grid time `t`: the `for idx in range(...)` scan restricted to one series is a
left fold of `resolveStep` over the samples in order, starting from `None`. -/
def resolveCovariate (t : ℤ) (samples : List Sample) : Option ℚ :=
  samples.foldl (resolveStep t) none

theorem getLast?_cons_eq_some (a : Sample) (as : List Sample) :
    ∃ x, (a :: as).getLast? = some x := by
  induction as generalizing a with
  | nil => exact ⟨a, rfl⟩
  | cons b bs ih =>
    obtain ⟨x, hx⟩ := ih b
    exact ⟨x, by rw [List.getLast?_cons_cons, hx]⟩

theorem foldl_resolveStep_some (t : ℤ) :
    ∀ (l : List Sample) (v : ℚ),
      l.foldl (resolveStep t) (some v)
        = some (((l.filter fun s => decide (s.validTime ≤ t)).getLast?.map
            Sample.value).getD v)
  | [], v => rfl
  | s :: l, v => by
    rw [List.foldl_cons]
    by_cases h : s.validTime ≤ t
    · have hstep : resolveStep t (some v) s = some s.value := by
        simp [resolveStep, h]
      rw [hstep, foldl_resolveStep_some t l s.value]
      have hfil : (s :: l).filter (fun s => decide (s.validTime ≤ t))
          = s :: l.filter (fun s => decide (s.validTime ≤ t)) := by
        simp [List.filter_cons, h]
      rw [hfil]
      cases hc : l.filter (fun s => decide (s.validTime ≤ t)) with
      | nil => simp
      | cons a as =>
        obtain ⟨x, hx⟩ := getLast?_cons_eq_some a as
        simp [List.getLast?_cons_cons, hx]
    · have hstep : resolveStep t (some v) s = some v := by
        simp [resolveStep, h]
      rw [hstep, foldl_resolveStep_some t l v]
      have hfil : (s :: l).filter (fun s => decide (s.validTime ≤ t))
          = l.filter (fun s => decide (s.validTime ≤ t)) := by
        simp [List.filter_cons, h]
      rw [hfil]

/-- C1: for a series sorted by ascending validity start that has at least one
sample with validity start ≤ t, the resampled value at grid time t is the
value of the last sample whose validity start is ≤ t (step-hold
interpolation); and temperatures are converted as F = 1.8·C + 32, so 10 °C
renders as 50 °F. -/
theorem resample_step_hold (t : ℤ) (samples : List Sample)
    (hsorted : samples.Pairwise fun a b => a.validTime ≤ b.validTime)
    (hex : ∃ s ∈ samples, s.validTime ≤ t) :
    resolveCovariate t samples
      = (samples.filter fun s => decide (s.validTime ≤ t)).getLast?.map
          Sample.value
    ∧ convertCToF 10 = 50 := by
  refine ⟨?_, by norm_num [convertCToF]⟩
  cases samples with
  | nil => obtain ⟨s, hs, -⟩ := hex; exact absurd hs (List.not_mem_nil s)
  | cons s l =>
    have hs0 : s.validTime ≤ t := by
      obtain ⟨w, hw, hwt⟩ := hex
      rcases List.mem_cons.mp hw with rfl | hwl
      · exact hwt
      · exact le_trans ((List.pairwise_cons.mp hsorted).1 w hwl) hwt
    have hstep : resolveStep t none s = some s.value := by
      simp [resolveStep]
    rw [resolveCovariate, List.foldl_cons, hstep, foldl_resolveStep_some t l s.value]
    have hfil : (s :: l).filter (fun s => decide (s.validTime ≤ t))
        = s :: l.filter (fun s => decide (s.validTime ≤ t)) := by
      simp [List.filter_cons, hs0]
    rw [hfil]
    cases hc : l.filter (fun s => decide (s.validTime ≤ t)) with
    | nil => simp
    | cons a as =>
      obtain ⟨x, hx⟩ := getLast?_cons_eq_some a as
      simp [List.getLast?_cons_cons, hx]

theorem resample_step_hold_witness :
    resolveCovariate 60 [⟨10, 0⟩, ⟨15, 120⟩] = some 10 ∧ convertCToF 10 = 50 := by
  have h := resample_step_hold 60 [⟨10, 0⟩, ⟨15, 120⟩]
    (by decide) ⟨⟨10, 0⟩, by decide⟩
  refine ⟨?_, h.2⟩
  rw [h.1]
  decide

/-- C2 counterexample: a non-empty series none of whose samples has validity
start ≤ t does not leave the covariate unset — the scan adopts the first
sample's value (`cur is None` branch at index 0). -/
theorem covariate_unset_claim_false :
    (∀ s ∈ ([⟨5, 100⟩] : List Sample), ¬ s.validTime ≤ 0)
    ∧ resolveCovariate 0 [⟨5, 100⟩] = some 5 := by
  decide

/-- C2 amended: the covariate at grid time t is unset iff the series is
empty; for a non-empty series none of whose samples has validity start ≤ t,
the covariate takes the value of the series' first sample. -/
theorem covariate_none_iff_empty (t : ℤ) (samples : List Sample) :
    (resolveCovariate t samples = none ↔ samples = [])
    ∧ (∀ s₀ rest, samples = s₀ :: rest → (∀ s ∈ samples, t < s.validTime) →
        resolveCovariate t samples = some s₀.value) := by
  constructor
  · cases samples with
    | nil => simp [resolveCovariate]
    | cons s l =>
      have hstep : resolveStep t none s = some s.value := by
        simp [resolveStep]
      rw [resolveCovariate, List.foldl_cons, hstep, foldl_resolveStep_some t l s.value]
      simp
  · rintro s₀ rest rfl hall
    have hstep : resolveStep t none s₀ = some s₀.value := by
      simp [resolveStep]
    rw [resolveCovariate, List.foldl_cons, hstep, foldl_resolveStep_some t rest s₀.value]
    have hfil : rest.filter (fun s => decide (s.validTime ≤ t)) = [] := by
      rw [List.filter_eq_nil_iff]
      intro a ha
      simpa using not_le.mpr (hall a (List.mem_cons_of_mem s₀ ha))
    rw [hfil]
    rfl

theorem covariate_none_iff_empty_witness :
    resolveCovariate 0 [⟨7, 100⟩] = some 7 :=
  (covariate_none_iff_empty 0 [⟨7, 100⟩]).2 ⟨7, 100⟩ [] rfl (by decide)

/-- A local wall-clock timestamp as used by `datetime.strftime`. -/
structure LocalTime where
  year : ℕ
  month : ℕ
  day : ℕ
  hour : ℕ
  minute : ℕ
  second : ℕ
  deriving Repr, DecidableEq

def padNum (width : ℕ) (n : ℕ) : List Char :=
  let ds := Nat.toDigits 10 n
  List.replicate (width - ds.length) '0' ++ ds

/-- One `%`-directive of `strftime`, for the numeric directives the program
could use; an unknown directive is passed through verbatim. -/
def strftimeDirective (d : LocalTime) (c : Char) : List Char :=
  match c with
  | 'Y' => padNum 4 d.year
  | 'm' => padNum 2 d.month
  | 'd' => padNum 2 d.day
  | 'H' => padNum 2 d.hour
  | 'M' => padNum 2 d.minute
  | 'S' => padNum 2 d.second
  | '%' => ['%']
  | c => ['%', c]

def strftimeAux (d : LocalTime) : List Char → List Char
  | [] => []
  | '%' :: c :: rest => strftimeDirective d c ++ strftimeAux d rest
  | c :: rest => c :: strftimeAux d rest

/-- Python `datetime.strftime`: format-string characters are copied verbatim
except for `%`-directives, which render fields of the date. -/
def strftime (d : LocalTime) (fmt : String) : String :=
  ⟨strftimeAux d fmt.data⟩

/-- line 32: `weather_cachefile = localNow.strftime('weather_cache.json')`. -/
def weather_cachefile (localNow : LocalTime) : String :=
  strftime localNow "weather_cache.json"

/-- C3: the format string passed to `strftime` contains no `%`-directive, so
the cache file path is the same constant on every local calendar day; runs on
different days share one path instead of using one file per day. -/
theorem cachefile_ignores_date (localNow : LocalTime) :
    weather_cachefile localNow = "weather_cache.json" := rfl

/-- The fetched forecast document: `updateTime` (minutes) plus the three
covariate series consumed at lines 295-297. -/
structure ForecastDoc where
  updateTime : ℤ
  probabilityOfPrecipitation : List Sample
  temperature : List Sample
  relativeHumidity : List Sample
  deriving Repr, DecidableEq

/-- Outcome of the acquire phase: the document used downstream, how many
fetches happened, and what (if anything) was written to the cache file. -/
structure AcquireOutcome where
  result : ForecastDoc
  fetchCount : ℕ
  cacheWrite : Option ForecastDoc
  deriving Repr, DecidableEq

/-- lines 278-291: load the cache file when present; mark it `tooOld` when
`updateTime + timedelta(hours=24) < now`; fetch (once) and write the cache
when the file is absent or too old, else use the cached document. -/
def acquireWeather (cache : Option ForecastDoc) (now : ℤ) (fetched : ForecastDoc) :
    AcquireOutcome :=
  match cache with
  | none => ⟨fetched, 1, some fetched⟩
  | some result =>
    if result.updateTime + 1440 < now then ⟨fetched, 1, some fetched⟩
    else ⟨result, 0, none⟩

/-- C4: a cache whose `updateTime` is within 24 hours of now is used
unchanged with no fetch and no cache write; an absent or stale (strictly
older than 24 hours) cache causes exactly one fetch whose result is written
to the cache file. -/
theorem cache_roundtrip_staleness (cache : Option ForecastDoc) (now : ℤ)
    (fetched doc : ForecastDoc) :
    (cache = some doc → now ≤ doc.updateTime + 1440 →
      acquireWeather cache now fetched = ⟨doc, 0, none⟩)
    ∧ ((cache = none ∨ (cache = some doc ∧ doc.updateTime + 1440 < now)) →
      (acquireWeather cache now fetched).fetchCount = 1
        ∧ (acquireWeather cache now fetched).cacheWrite = some fetched) := by
  constructor
  · rintro rfl hfresh
    simp [acquireWeather, not_lt.mpr hfresh]
  · rintro (rfl | ⟨rfl, hstale⟩)
    · exact ⟨rfl, rfl⟩
    · simp [acquireWeather, hstale]

theorem cache_roundtrip_staleness_witness :
    acquireWeather (some ⟨0, [], [], []⟩) 600 ⟨9, [], [], []⟩
      = ⟨⟨0, [], [], []⟩, 0, none⟩
    ∧ (acquireWeather (some ⟨0, [], [], []⟩) 2000 ⟨9, [], [], []⟩).fetchCount = 1 := by
  refine ⟨(cache_roundtrip_staleness _ 600 _ ⟨0, [], [], []⟩).1 rfl (by norm_num), ?_⟩
  exact ((cache_roundtrip_staleness (some ⟨0, [], [], []⟩) 2000 ⟨9, [], [], []⟩
    ⟨0, [], [], []⟩).2 (Or.inr ⟨rfl, by norm_num⟩)).1

/-- Python `min` over a non-empty list (raises `ValueError` on an empty
list, modelled as `none`). -/
def pyMin (l : List ℚ) : Option ℚ :=
  match l with
  | [] => none
  | x :: xs => some (xs.foldl min x)

/-- Python `max` over a non-empty list. -/
def pyMax (l : List ℚ) : Option ℚ :=
  match l with
  | [] => none
  | x :: xs => some (xs.foldl max x)

/-- line 115: `tempExtents = (min(50, min(temps)-10), max(60, max(temps)+10))`
over the temperature values of the grid points. -/
def tempExtents (temps : List ℚ) : Option (ℚ × ℚ) :=
  match pyMin temps, pyMax temps with
  | some mn, some mx => some (min 50 (mn - 10), max 60 (mx + 10))
  | _, _ => none

/-- C5: for a non-empty temperature list with minimum mn and maximum mx, the
vertical extents are exactly (min(50, mn−10), max(60, mx+10)); the low extent
is ≤ 50 and the high extent is ≥ 60, so the scale always spans 50–60 °F. -/
theorem temp_extents_span (temps : List ℚ) (h : temps ≠ []) :
    ∃ mn mx, pyMin temps = some mn ∧ pyMax temps = some mx ∧
      tempExtents temps = some (min 50 (mn - 10), max 60 (mx + 10)) ∧
      min 50 (mn - 10) ≤ 50 ∧ 60 ≤ max 60 (mx + 10) := by
  match temps, h with
  | x :: xs, _ =>
    exact ⟨xs.foldl min x, xs.foldl max x, rfl, rfl, rfl,
      min_le_left _ _, le_max_left _ _⟩

theorem temp_extents_span_witness :
    tempExtents [55, 56, 58] = some (45, 68)
    ∧ (45 : ℚ) ≤ 50 ∧ (60 : ℚ) ≤ 68 := by
  obtain ⟨mn, mx, hmn, hmx, hext, -, -⟩ :=
    temp_extents_span [55, 56, 58] (by simp)
  have e1 : pyMin [55, 56, 58] = some (55 : ℚ) := by
    norm_num [pyMin, min_def]
  have e2 : pyMax [55, 56, 58] = some (58 : ℚ) := by
    norm_num [pyMax, max_def]
  rw [e1] at hmn
  rw [e2] at hmx
  obtain rfl : (55 : ℚ) = mn := Option.some.inj hmn
  obtain rfl : (58 : ℚ) = mx := Option.some.inj hmx
  rw [hext]
  norm_num

/-- drawGraph horizontal layout constants (lines 64-72). -/
def imageAreaX : ℚ := 640

def exteriorImagePaddingX : ℚ := 38

def graphPaddingX : ℚ := 5

def currentTimeWidth : ℚ := 20

/-- line 91: the x-extent of `graphArea`, `(38, 640-38)`. -/
def graphAreaX : ℚ × ℚ := (exteriorImagePaddingX, imageAreaX - exteriorImagePaddingX)

/-- line 95: `graphSize[0]`, the inner drawing width. -/
def graphSizeX : ℚ := graphAreaX.2 - graphAreaX.1 - graphPaddingX * 2

/-- line 99: `roundBegin`, the begin time rounded down to the half hour
(`b` in absolute minutes; its local minute is `b % 60` in this model). -/
def roundBeginOf (b : ℤ) : ℤ :=
  b - b % 60 + (if b % 60 < 30 then 0 else 30)

/-- line 100: `roundEnd`, the end time rounded up to the next half hour. -/
def roundEndOf (e : ℤ) : ℤ :=
  if 30 ≤ e % 60 then e - e % 60 + 60 else e - e % 60 + 30

/-- lines 112-113: map a time to its x pixel coordinate. -/
def timeToGraphX (roundBegin timeRange t : ℚ) : ℚ :=
  graphAreaX.1 + graphPaddingX + (t - roundBegin) / timeRange * graphSizeX

/-- line 181: `currTimeMark`, the x position of the current time (the same
expression as `timeToGraphX`). -/
def currTimeMarkOf (roundBegin timeRange curT : ℚ) : ℚ :=
  graphAreaX.1 + graphPaddingX + (curT - roundBegin) / timeRange * graphSizeX

/-- lines 181-183: the current-time band, nominally `currentTimeWidth` wide
and centered on `currTimeMark`, clamped to the padded graph interior
(`minXes`). -/
def currentTimeBand (roundBegin timeRange curT : ℚ) : ℚ × ℚ :=
  (max (graphAreaX.1 + graphPaddingX)
    (currTimeMarkOf roundBegin timeRange curT - currentTimeWidth / 2),
   min (graphAreaX.2 - graphPaddingX)
    (currTimeMarkOf roundBegin timeRange curT + currentTimeWidth / 2))

/-- lines 105-106: `curTime = beginTime.replace(hour=beginTime.hour +
args.current_time)`.  `datetime.replace` raises `ValueError` when the new
hour leaves 0..23, modelled as `none`.  `beginAbs` is the begin time in
absolute minutes, `beginHour` its local hour; the begin time's minute is 0,
so a successful replace yields `beginAbs + 60*n`. -/
def spoofedCurTime (beginAbs beginHour n : ℤ) : Option ℤ :=
  if 0 ≤ beginHour + n ∧ beginHour + n ≤ 23 then some (beginAbs + 60 * n)
  else none

/-- The current-time band drawn for `--current-time n` on the program's grid:
begin time `m`, end time `m + 1470` (the last half-hour grid point), with
`roundBegin`/`roundEnd` as computed at lines 99-101. -/
def markerForSpoof (m beginHour n : ℤ) : Option (ℚ × ℚ) :=
  (spoofedCurTime m beginHour n).map fun (c : ℤ) =>
    currentTimeBand ((roundBeginOf m : ℤ) : ℚ)
      (((roundEndOf (m + 1470) - roundBeginOf m : ℤ) : ℚ)) ((c : ℤ) : ℚ)

/-- C6 counterexample: on an afternoon grid (begin hour 12, e.g. begin at
absolute minute 720) with `--current-time 12`, `beginTime.replace(hour=24)`
raises `ValueError`, so no marker is computed at all. -/
theorem marker_afternoon_overflow : markerForSpoof 720 12 12 = none := by
  simp [markerForSpoof, spoofedCurTime]

/-- C6 amended: when additionally `beginTime.hour + n ≤ 23` (otherwise
`datetime.replace` raises), the band is nominally 20 px wide, centered at
the x-position of begin + n hours, and clamped to the padded graph
interior. -/
theorem marker_centered_clamped (m beginHour n : ℤ) (hm : m % 60 = 0)
    (h0 : 0 ≤ beginHour + n) (h23 : beginHour + n ≤ 23) :
    markerForSpoof m beginHour n
      = some (max (graphAreaX.1 + graphPaddingX)
            (timeToGraphX (m : ℚ) 1500 ((m : ℚ) + 60 * (n : ℚ))
              - currentTimeWidth / 2),
          min (graphAreaX.2 - graphPaddingX)
            (timeToGraphX (m : ℚ) 1500 ((m : ℚ) + 60 * (n : ℚ))
              + currentTimeWidth / 2))
    ∧ (∀ L R, markerForSpoof m beginHour n = some (L, R) →
        graphAreaX.1 + graphPaddingX ≤ L ∧ R ≤ graphAreaX.2 - graphPaddingX) := by
  have hrb : roundBeginOf m = m := by
    rw [roundBeginOf]
    omega
  have hre : roundEndOf (m + 1470) = m + 1500 := by
    rw [roundEndOf]
    omega
  have hspoof : spoofedCurTime m beginHour n = some (m + 60 * n) := by
    simp [spoofedCurTime, h0, h23]
  have hband : markerForSpoof m beginHour n
      = some (currentTimeBand (m : ℚ) 1500 ((m : ℚ) + 60 * (n : ℚ))) := by
    rw [markerForSpoof, hspoof, hrb, hre]
    simp only [Option.map_some']
    refine congrArg some ?_
    have hb : (((m + 1500 - m : ℤ)) : ℚ) = 1500 := by push_cast; ring
    have hc : (((m + 60 * n : ℤ)) : ℚ) = (m : ℚ) + 60 * (n : ℚ) := by
      push_cast
      ring
    rw [hb, hc]
  have hmark : currentTimeBand (m : ℚ) 1500 ((m : ℚ) + 60 * (n : ℚ))
      = (max (graphAreaX.1 + graphPaddingX)
          (timeToGraphX (m : ℚ) 1500 ((m : ℚ) + 60 * (n : ℚ))
            - currentTimeWidth / 2),
         min (graphAreaX.2 - graphPaddingX)
          (timeToGraphX (m : ℚ) 1500 ((m : ℚ) + 60 * (n : ℚ))
            + currentTimeWidth / 2)) := rfl
  constructor
  · rw [hband, hmark]
  · intro L R hLR
    rw [hband, hmark] at hLR
    have hpair := Option.some.inj hLR
    rw [Prod.mk.injEq] at hpair
    obtain ⟨rfl, rfl⟩ := hpair
    exact ⟨le_max_left _ _, min_le_left _ _⟩

theorem marker_centered_clamped_witness :
    markerForSpoof 0 0 5
      = some (max (graphAreaX.1 + graphPaddingX)
            (timeToGraphX 0 1500 300 - currentTimeWidth / 2),
          min (graphAreaX.2 - graphPaddingX)
            (timeToGraphX 0 1500 300 + currentTimeWidth / 2))
    ∧ graphAreaX.1 + graphPaddingX
        ≤ max (graphAreaX.1 + graphPaddingX)
            (timeToGraphX 0 1500 300 - currentTimeWidth / 2) := by
  have h := marker_centered_clamped 0 0 5 (by norm_num) (by norm_num) (by norm_num)
  have h1 := h.1
  norm_num at h1 ⊢
  exact h1

/-- A resampled half-hour grid point as appended at line 318. -/
structure GridPoint where
  time : ℤ
  probabilityOfPrecipitation : Option ℚ
  temperature : ℚ
  relativeHumidity : Option ℚ
  deriving Repr, DecidableEq

/-- line 318: assembling one grid point.  `convertCToF(curTemp)` computes
`1.8 * curTemp + 32`, which raises `TypeError` when `curTemp` is `None`;
a missing precipitation or humidity value is stored as-is (null). -/
def assemblePoint (t : ℤ) (curPrecip curTemp curHumid : Option ℚ) :
    Option GridPoint :=
  match curTemp with
  | none => none
  | some c => some ⟨t, curPrecip, convertCToF c, curHumid⟩

/-- lines 20-22 and 316-317: the missing-covariate diagnostic is printed iff
some covariate is unresolved and `--debug-output` is set (`printd`). -/
def missingDiagnostic (debugOutput : Bool) (curPrecip curTemp curHumid : Option ℚ) :
    Bool :=
  debugOutput && (curPrecip.isNone || curTemp.isNone || curHumid.isNone)

/-- A point of a plotted polyline, as built at lines 53-57:
`(timeToXFunc(value['time']), yAdd+(value['value']-minValue)*yScaleFactor,
value['value'])`. -/
structure LinePoint where
  x : ℚ
  y : ℚ
  value : ℚ
  deriving Repr, DecidableEq

/-- lines 44-58: `getLinePoints` over `{'time': ..., 'value': ...}` records
(as `(time, Option value)` pairs).  The y coordinate computes
`yAdd + (value['value'] - minValue) * yScaleFactor` (line 55), which raises
`TypeError` when the value is `None`, modelled as `none`.  The defaults
(`yScaleFactor=1`, `minValue=0`, `yAdd=0`) are supplied by the callers. -/
def getLinePoints (values : List (ℤ × Option ℚ)) (timeToXFunc : ℤ → ℚ)
    (yScaleFactor minValue yAdd : ℚ) : Option (List LinePoint) :=
  match values with
  | [] => some []
  | (_, none) :: _ => none
  | (t, some v) :: rest =>
    (getLinePoints rest timeToXFunc yScaleFactor minValue yAdd).map
      fun ps => ⟨timeToXFunc t, yAdd + (v - minValue) * yScaleFactor, v⟩ :: ps

/-- line 109: `chancePrecips`, the series drawGraph builds from the grid and
passes to `getLinePoints` at line 213. -/
def chancePrecipsOf (graphData : List GridPoint) : List (ℤ × Option ℚ) :=
  graphData.map fun val => (val.time, val.probabilityOfPrecipitation)

/-- line 110: `humidities`, passed to `getLinePoints` at line 219. -/
def humiditiesOf (graphData : List GridPoint) : List (ℤ × Option ℚ) :=
  graphData.map fun val => (val.time, val.relativeHumidity)

theorem getLinePoints_none (t : ℤ) (f : ℤ → ℚ) (ySc minV yAdd : ℚ) :
    ∀ (pre post : List (ℤ × Option ℚ)),
      getLinePoints (pre ++ (t, none) :: post) f ySc minV yAdd = none
  | [], _ => rfl
  | (_, none) :: _, _ => rfl
  | (t2, some v2) :: pre, post => by
    show (getLinePoints (pre ++ (t, none) :: post) f ySc minV yAdd).map
      (fun ps => ⟨f t2, yAdd + (v2 - minV) * ySc, v2⟩ :: ps) = none
    rw [getLinePoints_none t f ySc minV yAdd pre post]
    rfl

/-- C7 counterexample: a grid point whose temperature is unresolved is not
appended — `convertCToF(None)` raises `TypeError` and the run aborts. -/
theorem missing_temperature_fatal :
    assemblePoint 0 (some 0) none (some 0) = none := rfl

/-- C7 amended: the diagnostic is printed exactly when debug output is on
and some covariate is missing, and a grid point missing only precipitation
or humidity is still appended (carrying null); but no missing covariate is
non-fatal: a missing temperature makes `convertCToF` raise `TypeError` at
assembly (line 318), and a null precipitation or humidity value makes
`getLinePoints` raise `TypeError` (line 55) when drawGraph draws that series
(lines 213 and 219), so rendering does not proceed and the run aborts. -/
theorem missing_covariate_handling (t : ℤ) (p h : Option ℚ) (c : ℚ)
    (debugOutput : Bool) :
    assemblePoint t p (some c) h = some ⟨t, p, convertCToF c, h⟩
    ∧ (missingDiagnostic debugOutput p (some c) h = true
        ↔ debugOutput = true ∧ (p.isNone || h.isNone) = true)
    ∧ (∀ p2 h2, assemblePoint t p2 none h2 = none)
    ∧ (∀ (pre post : List GridPoint) (gp : GridPoint) (f : ℤ → ℚ)
          (ySc yAdd : ℚ), gp.probabilityOfPrecipitation = none →
        getLinePoints (chancePrecipsOf (pre ++ gp :: post)) f ySc 0 yAdd = none)
    ∧ (∀ (pre post : List GridPoint) (gp : GridPoint) (f : ℤ → ℚ)
          (ySc yAdd : ℚ), gp.relativeHumidity = none →
        getLinePoints (humiditiesOf (pre ++ gp :: post)) f ySc 0 yAdd = none) := by
  refine ⟨rfl, by simp [missingDiagnostic], fun p2 h2 => rfl, ?_, ?_⟩
  · intro pre post gp f ySc yAdd hnone
    rw [chancePrecipsOf, List.map_append, List.map_cons, hnone]
    exact getLinePoints_none gp.time f ySc 0 yAdd
      (pre.map fun val => (val.time, val.probabilityOfPrecipitation))
      (post.map fun val => (val.time, val.probabilityOfPrecipitation))
  · intro pre post gp f ySc yAdd hnone
    rw [humiditiesOf, List.map_append, List.map_cons, hnone]
    exact getLinePoints_none gp.time f ySc 0 yAdd
      (pre.map fun val => (val.time, val.relativeHumidity))
      (post.map fun val => (val.time, val.relativeHumidity))

theorem missing_covariate_handling_witness :
    assemblePoint 0 none (some 10) none = some ⟨0, none, 50, none⟩
    ∧ missingDiagnostic true none (some 10) none = true
    ∧ getLinePoints (chancePrecipsOf [⟨0, none, 50, none⟩]) (fun _ => 0) 1 0 0
        = none
    ∧ getLinePoints (humiditiesOf [⟨0, none, 50, none⟩]) (fun _ => 0) 1 0 0
        = none := by
  have hm := missing_covariate_handling 0 none none 10 true
  refine ⟨?_, hm.2.1.mpr ⟨rfl, rfl⟩, ?_, ?_⟩
  · rw [hm.1]
    norm_num [convertCToF]
  · exact hm.2.2.2.1 [] [] ⟨0, none, 50, none⟩ (fun _ => 0) 1 0 rfl
  · exact hm.2.2.2.2 [] [] ⟨0, none, 50, none⟩ (fun _ => 0) 1 0 rfl

/-- line 257: `within24Hours = lambda time: oneDayHence >= time`, with the
module-level `oneDayHence` passed explicitly. -/
def within24Hours (oneDayHence time : ℤ) : Bool :=
  decide (oneDayHence ≥ time)

/-- line 34: `oneDayHence = measureStart + timedelta(days=1, hours=1)`,
i.e. 1500 minutes past the window start. -/
def oneDayHenceOf (measureStart : ℤ) : ℤ := measureStart + 1500

/-- lines 259-263: `extractTimeValues` keeps exactly the samples passing
`within24Hours`; ISO-8601 parsing is abstracted, samples carrying their
already-parsed validity start. -/
def extractTimeValues (oneDayHence : ℤ) (resultGroup : List Sample) :
    List Sample :=
  resultGroup.filter fun v => within24Hours oneDayHence v.validTime

/-- C8 counterexample: a sample far before the window start (100 hours
before `measureStart = 0`) is retained, because `within24Hours` checks only
the upper bound. -/
theorem extract_keeps_past_sample :
    extractTimeValues (oneDayHenceOf 0) [⟨5, -6000⟩] = [⟨5, -6000⟩]
    ∧ ¬ ((0 : ℤ) ≤ -6000) := by
  constructor
  · rfl
  · decide

/-- C8 amended: a sample is retained iff its validity start is at most
`measureStart + 25 h`; no lower bound is applied, so samples before the
window start are retained as well. -/
theorem extract_upper_bound_only (measureStart : ℤ) (resultGroup : List Sample)
    (s : Sample) :
    s ∈ extractTimeValues (oneDayHenceOf measureStart) resultGroup
      ↔ s ∈ resultGroup ∧ s.validTime ≤ measureStart + 1500 := by
  simp [extractTimeValues, within24Hours, oneDayHenceOf, List.mem_filter,
    ge_iff_le]

theorem extract_upper_bound_only_witness :
    (⟨5, 200⟩ : Sample) ∈ extractTimeValues (oneDayHenceOf 0) [⟨5, 200⟩] :=
  (extract_upper_bound_only 0 [⟨5, 200⟩] ⟨5, 200⟩).mpr ⟨by decide, by decide⟩

/-- ASCII whitespace stripped by Python `int()` around a literal. -/
def isPySpace (c : Char) : Bool :=
  c == ' ' || c == '\t' || c == '\n' || c == '\r'

def parseDigitsAux : List Char → ℕ → Option ℕ
  | [], acc => some acc
  | c :: cs, acc =>
    if c.isDigit then parseDigitsAux cs (acc * 10 + (c.toNat - 48)) else none

/-- A non-empty run of decimal digits, as an `int()` literal requires. -/
def parseDigits : List Char → Option ℕ
  | [] => none
  | c :: cs => parseDigitsAux (c :: cs) 0

/-- Python built-in `int(string)` as used at line 8: optional surrounding
whitespace, an optional sign and one or more decimal digits; anything else
raises `ValueError`, modelled as `none`.  (Underscore digit grouping is not
modelled.) -/
def pythonInt (s : String) : Option ℤ :=
  match (s.data.dropWhile isPySpace).reverse.dropWhile isPySpace |>.reverse with
  | '+' :: rest => (parseDigits rest).map fun d => (d : ℤ)
  | '-' :: rest => (parseDigits rest).map fun d => -(d : ℤ)
  | rest => (parseDigits rest).map fun d => (d : ℤ)

/-- lines 7-11: `type_hours` parses the `--current-time` argument with
`int()` and raises unless the value lies in 0..23; argparse converts either
raise into an immediate usage failure, and `parse_args()` runs at line 18
before any other work. -/
def type_hours (string : String) : Except String ℤ :=
  match pythonInt string with
  | none => Except.error "invalid literal for int()"
  | some val =>
    if val < 0 ∨ val > 23 then
      Except.error "Value must be an integer between 0 and 23"
    else Except.ok val

/-- C9: `--current-time` parsing succeeds with value v iff the string
denotes an integer v with 0 ≤ v ≤ 23; for every other string the type
function raises (a usage failure). -/
theorem current_time_validation (s : String) (v : ℤ) :
    (type_hours s = Except.ok v ↔ pythonInt s = some v ∧ 0 ≤ v ∧ v ≤ 23)
    ∧ ((∃ e, type_hours s = Except.error e)
        ↔ ¬ ∃ w, pythonInt s = some w ∧ 0 ≤ w ∧ w ≤ 23) := by
  cases hp : pythonInt s with
  | none =>
    have he : type_hours s = Except.error "invalid literal for int()" := by
      unfold type_hours
      rw [hp]
    simp [he]
  | some w =>
    by_cases hw : w < 0 ∨ w > 23
    · have he : type_hours s
          = Except.error "Value must be an integer between 0 and 23" := by
        unfold type_hours
        rw [hp]
        show (if w < 0 ∨ w > 23 then
            Except.error "Value must be an integer between 0 and 23"
          else Except.ok w) = Except.error "Value must be an integer between 0 and 23"
        rw [if_pos hw]
      constructor
      · constructor
        · intro h
          rw [he] at h
          simp at h
        · rintro ⟨hv, h0, h23⟩
          obtain rfl := Option.some.inj hv
          omega
      · constructor
        · rintro ⟨e, -⟩ ⟨x, hx, hx0, hx23⟩
          obtain rfl := Option.some.inj hx
          omega
        · intro hnot
          exact ⟨_, he⟩
    · have hok : type_hours s = Except.ok w := by
        unfold type_hours
        rw [hp]
        show (if w < 0 ∨ w > 23 then
            Except.error "Value must be an integer between 0 and 23"
          else Except.ok w) = Except.ok w
        rw [if_neg hw]
      constructor
      · constructor
        · intro h
          rw [hok] at h
          obtain rfl := Except.ok.inj h
          exact ⟨rfl, by omega, by omega⟩
        · rintro ⟨hv, -, -⟩
          obtain rfl := Option.some.inj hv
          exact hok
      · constructor
        · rintro ⟨e, he⟩
          rw [hok] at he
          simp at he
        · intro hnot
          exact absurd ⟨w, rfl, by omega, by omega⟩ hnot

/-- lines 299-319: the `while curTime < oneDayHence` grid loop, stepping
`timedelta(minutes=30)`, collecting each grid timestamp. -/
def gridTimes (cur stop : ℤ) : List ℤ :=
  if h : cur < stop then cur :: gridTimes (cur + 30) stop else []
termination_by (stop - cur).toNat
decreasing_by
  simp_wf
  omega

/-- line 31: the `measureStart` hour truncation `int(localNow.hour/12)*12`. -/
def measureStartHour (nowHour : ℕ) : ℕ := nowHour / 12 * 12

theorem gridTimes_add : ∀ (k : ℕ) (m : ℤ),
    gridTimes m (m + 30 * (k : ℤ)) = (List.range k).map fun (i : ℕ) => m + 30 * (i : ℤ)
  | 0, m => by
    rw [gridTimes]
    simp
  | Nat.succ k, m => by
    have hlt : m < m + 30 * ((Nat.succ k : ℕ) : ℤ) := by
      push_cast
      omega
    rw [gridTimes, dif_pos hlt]
    have harg : m + 30 * ((Nat.succ k : ℕ) : ℤ) = (m + 30) + 30 * (k : ℤ) := by
      push_cast
      ring
    rw [harg, gridTimes_add k (m + 30)]
    simp only [List.range_succ_eq_map, List.map_cons, List.map_map]
    refine congrArg₂ List.cons ?_ ?_
    · simp
    · refine List.map_congr_left fun i hi => ?_
      simp only [Function.comp_apply]
      push_cast
      ring

/-- C10: the grid has exactly 50 half-hour points: it starts at
`measureStart` (whose hour is the most recent half-day boundary, 0 or 12),
consecutive points are 30 minutes apart, the last point is
`measureStart + 1470` minutes (30 minutes before the 25-hour mark), and the
list handed to `drawGraph` is non-empty. -/
theorem grid_fifty_points (m : ℤ) :
    gridTimes m (m + 1500) = ((List.range 50).map fun (i : ℕ) => m + 30 * (i : ℤ))
    ∧ (gridTimes m (m + 1500)).length = 50
    ∧ (gridTimes m (m + 1500)).head? = some m
    ∧ (gridTimes m (m + 1500)).getLast? = some (m + 1470)
    ∧ gridTimes m (m + 1500) ≠ []
    ∧ List.Chain' (fun a b => b = a + 30) (gridTimes m (m + 1500))
    ∧ (∀ hh : ℕ, hh ≤ 23 → measureStartHour hh = 0 ∨ measureStartHour hh = 12) := by
  have hg : gridTimes m (m + 1500) = (List.range 50).map fun (i : ℕ) => m + 30 * (i : ℤ) := by
    have h50 := gridTimes_add 50 m
    norm_num at h50
    exact h50
  have hr0 : (List.range 50).head? = some 0 := rfl
  have hr49 : (List.range 50).getLast? = some 49 := by decide
  refine ⟨hg, ?_, ?_, ?_, ?_, ?_, ?_⟩
  · rw [hg]
    simp
  · rw [hg, List.head?_map, hr0]
    simp
  · rw [hg, List.getLast?_map, hr49]
    norm_num
  · rw [hg]
    simp
  · rw [hg, List.chain'_map]
    refine (List.chain'_range_succ _ 49).mpr fun i hi => ?_
    push_cast
    ring
  · intro hh hhle
    unfold measureStartHour
    omega

theorem grid_fifty_points_witness :
    (gridTimes 0 (0 + 1500)).length = 50 ∧ measureStartHour 13 = 12 := by
  have h := grid_fifty_points 0
  refine ⟨h.2.1, ?_⟩
  rcases h.2.2.2.2.2.2 13 (by norm_num) with h13 | h13
  · exact absurd h13 (by decide)
  · exact h13
